import Mathlib

/-
Verification of the retrieval-assembly core of the Ontario Building Code
chat assistant (app.py, src/query_expander.py, src/chat.py, src/database.py,
src/utils/token_counter.py).

External services (the tiktoken tokenizer, the OpenAI completion and
embedding endpoints, the ChromaDB vector store) are modelled as explicit
function parameters; all repository logic is translated line by line into
total Lean functions.
-/

namespace OBC

/-- Token usage record, mirroring the Python dicts
`{"prompt_tokens": _, "completion_tokens": _, "total_tokens": _}`. -/
structure TokenUsage where
  prompt_tokens : Nat
  completion_tokens : Nat
  total_tokens : Nat
deriving Repr, DecidableEq

/-- The zero-usage dict returned on the query expander's fallback path
(query_expander.py line 96) and after a chat-stream exception
(chat.py line 195). -/
def zeroUsage : TokenUsage := ⟨0, 0, 0⟩

/-! ### Tokenizer adapter (src/utils/token_counter.py)

The tiktoken encoders are modelled by a parameter
`enc : String → String → List Nat` mapping a model name and a text to its
token sequence, and a matching decoder `dec : String → List Nat → String`. -/

/-- count_tokens (token_counter.py lines 27-44):
`len(encoding.encode(text))` for the encoder of `model` (default "gpt-4"). -/
def count_tokens (enc : String → String → List Nat) (text : String)
    (model : String := "gpt-4") : Nat :=
  (enc model text).length

/-- The overlap after the safety check of chunk_text
(token_counter.py lines 71-73): if `overlap_tokens >= max_tokens` it is
replaced by `max_tokens // 4`. -/
def chunkOverlap (maxTokens overlapTokens : Nat) : Nat :=
  if maxTokens ≤ overlapTokens then maxTokens / 4 else overlapTokens

/-- The step size `max_tokens - overlap_tokens` of chunk_text
(token_counter.py line 77), after the overlap safety check. -/
def chunkStep (maxTokens overlapTokens : Nat) : Nat :=
  maxTokens - chunkOverlap maxTokens overlapTokens

/-- The chunking loop of chunk_text (token_counter.py lines 81-94):
for each index `i` starting from the given one, slice
`tokens[i*step : min(i*step+max_tokens, len(tokens))]`, emit the decoded
slice with its length, and break once the slice reaches the end of
`tokens`.  The first argument counts the remaining loop iterations
(`n_chunks - i` in the source). -/
def chunkTextLoop (d : List Nat → String) (tokens : List Nat)
    (maxTokens stepSize : Nat) : Nat → Nat → List (String × Nat)
  | 0, _ => []
  | fuel + 1, i =>
    let startIdx := i * stepSize
    let endIdx := min (startIdx + maxTokens) tokens.length
    let chunkTokens := (tokens.drop startIdx).take (endIdx - startIdx)
    (d chunkTokens, chunkTokens.length) ::
      (if tokens.length ≤ endIdx then []
       else chunkTextLoop d tokens maxTokens stepSize fuel (i + 1))

/-- chunk_text (token_counter.py lines 46-96): encode the text, clamp the
overlap, compute `n_chunks = (n_tokens + step - 1) // step`, then run the
chunking loop. -/
def chunk_text (enc : String → String → List Nat)
    (dec : String → List Nat → String) (text : String)
    (maxTokens : Nat := 8000) (overlapTokens : Nat := 200)
    (model : String := "gpt-4o-mini") : List (String × Nat) :=
  let tokens := enc model text
  let stepSize := chunkStep maxTokens overlapTokens
  let nChunks := (tokens.length + stepSize - 1) / stepSize
  chunkTextLoop (dec model) tokens maxTokens stepSize nChunks 0

/-! ### Ingestion (src/scraper.py, src/database.py) -/

/-- process_content (scraper.py lines 115-143): chunk the scraped text with
`max_tokens=2000`, `overlap_tokens=200` and the default model
"gpt-4o-mini"; the resulting (chunk, token_count) pairs are what
VectorStore.add_chunks stores (database.py lines 77-87: the text as the
document, the count as the `tokens` metadata field). -/
def process_content (enc : String → String → List Nat)
    (dec : String → List Nat → String) (text : String) : List (String × Nat) :=
  chunk_text enc dec text 2000 200 "gpt-4o-mini"

/-- A stored vector index, modelled as the ranked (document, stored token
count) pairs it returns for each query text: `store q` stands for
`collection.query(...)` giving `documents[0]` zipped with the `tokens`
metadata of each hit. -/
def queryDocuments (store : String → List (String × Nat)) (q : String) :
    List String :=
  (store q).map Prod.fst

/-! ### Context assembler (app.py, get_relevant_chunks, lines 202-261) -/

/-- The inner loop of get_relevant_chunks (app.py lines 239-252) over the
documents returned for one query: a chunk already in `all_chunks` is
skipped; a new chunk whose `count_tokens` value would push the running
total over the budget triggers the early `return` (signalled by the `true`
flag); otherwise the chunk is appended and the total updated. -/
def addChunks (tc : String → Nat) (maxTok : Nat) :
    List String → List String → Nat → List String × Nat × Bool
  | [], acc, cur => (acc, cur, false)
  | c :: cs, acc, cur =>
    if c ∈ acc then addChunks tc maxTok cs acc cur
    else if maxTok < cur + tc c then (acc, cur, true)
    else addChunks tc maxTok cs (acc ++ [c]) (cur + tc c)

/-- The outer loop of get_relevant_chunks (app.py lines 232-256) over the
candidate sets of the fanned-out queries, threading the accumulated chunks
and running token total; the early `return` of the inner loop ends the
whole traversal. -/
def assembleAux (tc : String → Nat) (maxTok : Nat) :
    List (List String) → List String → Nat → List String
  | [], acc, _ => acc
  | cs :: css, acc, cur =>
    let r := addChunks tc maxTok cs acc cur
    if r.2.2 then r.1 else assembleAux tc maxTok css r.1 r.2.1

/-- Context assembly over an ordered sequence of candidate sets: the loop
of get_relevant_chunks started from an empty chunk list and a zero token
total. -/
def assemble (tc : String → Nat) (maxTok : Nat)
    (candidateSets : List (List String)) : List String :=
  assembleAux tc maxTok candidateSets [] 0

/-- Reference traversal of the flattened candidate stream: processing the
concatenation of all candidate sets chunk by chunk with the same
skip/stop/append policy as get_relevant_chunks. -/
def consume (tc : String → Nat) (maxTok : Nat) :
    List String → List String → Nat → List String
  | [], acc, _ => acc
  | c :: cs, acc, cur =>
    if c ∈ acc then consume tc maxTok cs acc cur
    else if maxTok < cur + tc c then acc
    else consume tc maxTok cs (acc ++ [c]) (cur + tc c)

/-- First-occurrence deduplication (spec language, §3 Assembled Context):
keep each content the first time it is met, skipping contents already
`seen`. -/
def dedupFirstAux (seen : List String) : List String → List String
  | [] => []
  | x :: xs =>
    if x ∈ seen then dedupFirstAux seen xs
    else x :: dedupFirstAux (x :: seen) xs

/-- First-occurrence deduplication of a list, starting from nothing seen. -/
def dedupFirst (l : List String) : List String := dedupFirstAux [] l

/-- Sum of the token counts of a list of chunks under a token counter. -/
def sumTokens (tc : String → Nat) (l : List String) : Nat :=
  (l.map tc).sum

/-- The instrumented traversal of get_relevant_chunks (app.py lines
232-256): one vector-store lookup is issued per query in order (recorded
in the `issued` list) before its documents are processed; the inner
loop's early `return` ends the traversal after the lookup of the current
query. -/
def getRelevantChunksAux (store : String → List String) (tc : String → Nat)
    (maxTok : Nat) :
    List String → List String → Nat → List String →
      List String × List String
  | [], acc, _, issued => (acc, issued)
  | q :: qs, acc, cur, issued =>
    let results := store q
    let r := addChunks tc maxTok results acc cur
    if r.2.2 then (r.1, issued ++ [q])
    else getRelevantChunksAux store tc maxTok qs r.1 r.2.1 (issued ++ [q])

/-- get_relevant_chunks (app.py lines 202-261), instrumented: given the
vector store (as the top-k documents per query text) and the token
counter, traverse `[query] + expanded_queries`, returning the assembled
chunks together with the list of queries actually sent to the store. -/
def get_relevant_chunks (store : String → List String) (tc : String → Nat)
    (maxTok : Nat) (query : String) (expandedQueries : List String) :
    List String × List String :=
  getRelevantChunksAux store tc maxTok (query :: expandedQueries) [] 0 []

/-- MAX_CONTEXT_TOKENS (app.py line 228). -/
def MAX_CONTEXT_TOKENS : Nat := 100000

/-- The retrieval call as the app makes it (app.py lines 245 and 311-315):
the token counter is count_tokens with its default "gpt-4" model — the
stored `tokens` metadata of the hits is never read, only the documents
are. -/
def app_retrieval (enc : String → String → List Nat)
    (store : String → List (String × Nat)) (query : String)
    (expandedQueries : List String) : List String × List String :=
  get_relevant_chunks (queryDocuments store) (fun c => count_tokens enc c)
    MAX_CONTEXT_TOKENS query expandedQueries

/-! ### Query expander (src/query_expander.py) -/

/-- Python values produced by `json.loads`, as far as the expander
inspects them. -/
inductive Json where
  | str (s : String)
  | num (n : Int)
  | arr (elems : List Json)
  | obj (fields : List (String × Json))
  | null

/-- Python `len` on a parsed JSON value: defined for strings, lists and
dicts; `none` models the TypeError raised on numbers and None. -/
def pyLen : Json → Option Nat
  | .str s => some s.length
  | .arr xs => some xs.length
  | .obj fs => some fs.length
  | _ => none

/-- Outcome of the completion call inside QueryExpander.generate
(query_expander.py lines 69-75): either the transport raised, or it
returned a message content string together with its usage record. -/
inductive ServiceResult where
  | err (msg : String)
  | ok (content : String) (usage : TokenUsage)
deriving Repr

/-- QueryExpander.generate (query_expander.py lines 68-96), with
`json.loads` modelled by the parameter `parseJson` (`none` = the parse
raised).  The prompt built from the query and the conversation history
only influences the service, so the history is absorbed into the service
outcome.  The whole body sits in a `try`: a transport error, a parse
error, a `len()` TypeError or a count mismatch all reach the `except`
branch, which prints locally and returns `([query], zero usage)` instead
of re-raising — the Lean model is correspondingly total. -/
def generate (parseJson : String → Option Json) (query : String)
    (nQueries : Nat) (resp : ServiceResult) : Json × TokenUsage :=
  match resp with
  | .err _ => (.arr [.str query], zeroUsage)
  | .ok content usage =>
    match parseJson content with
    | none => (.arr [.str query], zeroUsage)
    | some queries =>
      match pyLen queries with
      | none => (.arr [.str query], zeroUsage)
      | some count =>
        if count ≠ nQueries then (.arr [.str query], zeroUsage)
        else (queries, usage)

/-! ### Turn orchestration (app.py, process_message, lines 263-344) -/

/-- has_meaningful_queries (app.py line 301):
`len(expanded_queries) > 1 and expanded_queries != [query]`. -/
def has_meaningful_queries (query : String) (expandedQueries : List String) :
    Bool :=
  decide (1 < expandedQueries.length) && decide (expandedQueries ≠ [query])

/-- The retrieval phase of process_message (app.py lines 301-338): when
the expansion is meaningful, run get_relevant_chunks and join the chunks
with blank lines (empty context when no chunk was returned); otherwise
skip retrieval entirely — no store lookup, empty context.  Returns the
grounding context together with the queries sent to the vector store. -/
def retrievalPhase (store : String → List String) (tc : String → Nat)
    (query : String) (expandedQueries : List String) :
    String × List String :=
  if has_meaningful_queries query expandedQueries then
    let r := get_relevant_chunks store tc MAX_CONTEXT_TOKENS query
      expandedQueries
    ((if r.1 = [] then "" else String.intercalate "\n\n" r.1), r.2)
  else ("", [])

/-! ### Prompt builder and chat delivery (src/chat.py) -/

/-- The template text of ChatBot.generate_system_prompt (chat.py lines
58-71) before the `{context}` interpolation point, exactly as written in
the source (trailing spaces and 12-space indentation included). -/
def sysPromptPre : String :=
  "You are an expert assistant for the Ontario Building Code. \n" ++
  "            Use the following context to answer questions about the building code. \n" ++
  "            If you\x27re not sure about something, say so.\n" ++
  "\n" ++
  "            The user is likely inquiring about something in the building code.\n" ++
  "            You need to first determine if the user is asking anything about the building code. If they are, you need to find the best answer to their question possible and always site relevant sections, subsections, or subsections as much as you can so that they can navigate back to and check your response on the website.\n" ++
  "            If you do have any relevant sections or subsections or tables or any kind of reference citation that you refer to in your response you must bold it using markdown bolding. Example: **Section 1.2.3**\n" ++
  "            You ALWAYS provided citations for any information you provide. This is critical. You also ALWAYS provided a small sample of exact text, sections to look within, or tables to look within for the user to verify your response on the website.\n" ++
  "\n" ++
  "            --------------------------------\n" ++
  "            <|context|>\n" ++
  "            "

/-- The template text after the `{context}` interpolation point. -/
def sysPromptPost : String :=
  "\n            <|/context|>\n            "

/-- ChatBot.generate_system_prompt (chat.py lines 44-71): interpolate the
context into the template, then `.replace("    ", " ").strip()`. -/
def generate_system_prompt (context : String) : String :=
  ((sysPromptPre ++ context ++ sysPromptPost).replace "    " " ").trim

/-- A chat message dict with `role` and `content`. -/
structure Message where
  role : String
  content : String
deriving Repr, DecidableEq

/-- The placeholder context hard-coded in ChatBot.process_message
(chat.py line 95). -/
def placeholderContext : String :=
  "Relevant building code context would be retrieved here"

/-- The text ChatBot.process_message (chat.py line 99) appends to the last
user message: `f"{user_query}\n\nRelevant Building Code Context:\n{context}"`
with the placeholder context. -/
def ragSuffix : String :=
  "\n\nRelevant Building Code Context:\n" ++ placeholderContext

/-- The message list actually handed to the completion calls inside
ChatBot.chat_stream (chat.py lines 141-161): when the last message has
role "user", ChatBot.process_message replaces its content with the
original content followed by `ragSuffix` (a shallow list copy, same
dicts); otherwise the list is passed unchanged. -/
def deliveredMessages (messages : List Message) : List Message :=
  match messages.getLast? with
  | some last =>
    if last.role = "user" then
      messages.dropLast ++ [⟨last.role, last.content ++ ragSuffix⟩]
    else messages
  | none => messages

/-- The two-message list built by process_message (app.py lines 341-344):
the system prompt holding the assembled context, then the user query. -/
def chatMessages (context query : String) : List Message :=
  [⟨"system", generate_system_prompt context⟩, ⟨"user", query⟩]

/-! ### Chat streaming (src/chat.py, chat_stream, lines 125-195) -/

/-- An item yielded by ChatBot.chat_stream: either a text chunk or a token
usage record. -/
inductive StreamItem where
  | text (s : String)
  | usage (u : TokenUsage)
deriving Repr, DecidableEq

/-- Behaviour of the OpenAI API during one chat_stream call: the
`max_tokens=1` probe (its prompt token count, or the exception raised),
the content deltas received while streaming (`none` for a delta without
content), the exception raised during streaming if any, and the final
non-streaming call (its completion token count, or the exception
raised). -/
structure ApiBehavior where
  probe : Except String Nat
  deltas : List (Option String)
  streamErr : Option String
  final : Except String Nat

/-- The two items the `except` branch of chat_stream yields (chat.py
lines 193-195): the stringified error prefixed with "Error: ", then the
zero usage record. -/
def errorTail (e : String) : List StreamItem :=
  [.text ("Error: " ++ e), .usage zeroUsage]

/-- ChatBot.chat_stream (chat.py lines 125-195) as the list of items it
yields, given the API behaviour.  The whole body sits in a single
`try/except`: an exception in the probe yields the error tail alone; an
exception during streaming yields it after the deltas already delivered;
an exception in the final usage call likewise; on full success the deltas
are followed by the combined usage record.  No branch re-raises. -/
def chat_stream (api : ApiBehavior) : List StreamItem :=
  match api.probe with
  | .error e => errorTail e
  | .ok promptTokens =>
    let texts := (api.deltas.filterMap id).map StreamItem.text
    match api.streamErr with
    | some e => texts ++ errorTail e
    | none =>
      match api.final with
      | .error e => texts ++ errorTail e
      | .ok completionTokens =>
        texts ++
          [.usage ⟨promptTokens, completionTokens,
            promptTokens + completionTokens⟩]

/-! ### Concrete instances used by witnesses and counterexamples -/

/-- Token counts of the worked example of spec §8: A costs 50, B costs 60,
C costs 500. -/
def tcEx : String → Nat := fun s =>
  if s = "A" then 50 else if s = "B" then 60 else if s = "C" then 500 else 0

/-- A degenerate vector store used by witnesses. -/
def storeW : String → List String := fun _ => ["d"]

/-- A unit token counter used by witnesses. -/
def tcW : String → Nat := fun _ => 1

/-- A parse result with three string elements, as in the spec scenario
where four queries were requested but three came back. -/
def parseW : String → Option Json := fun _ =>
  some (.arr [.str "a", .str "b", .str "c"])

/-- A parse result whose top-level list holds numbers, not strings. -/
def parseNumsW : String → Option Json := fun _ =>
  some (.arr [.num 1, .num 2])

/-- An encoder family under which the "gpt-4o-mini" encoder sees two
tokens where the "gpt-4" encoder sees one. -/
def encW6 : String → String → List Nat := fun model _ =>
  if model = "gpt-4o-mini" then [0, 1] else [0]

/-- The matching decoder: both tokens decode back to the text "ab". -/
def decW6 : String → List Nat → String := fun _ _ => "ab"

/-- A stored index whose single hit carries token metadata 5. -/
def storeA6 : String → List (String × Nat) := fun _ => [("d", 5)]

/-- The same documents as storeA6 with different token metadata. -/
def storeB6 : String → List (String × Nat) := fun _ => [("d", 999)]

/-- An API behaviour whose probe call raises. -/
def apiW : ApiBehavior := ⟨.error "boom", [], none, .ok 0⟩

/-- A three-token encoder used by the chunking witness. -/
def encC : String → String → List Nat := fun _ _ => [0, 1, 2]

/-- A constant decoder used by the chunking witness. -/
def decC : String → List Nat → String := fun _ _ => "x"

/-! ### Shared lemmas -/

/-- When the inner loop of get_relevant_chunks hits the budget (stop flag
`true`), processing the flattened stream from the same state returns the
same accumulated chunks, whatever comes after the current candidate
set. -/
theorem addChunks_consume_stop (tc : String → Nat) (m : Nat) :
    ∀ (cs rest acc : List String) (cur : Nat) (a : List String) (c : Nat),
      addChunks tc m cs acc cur = (a, c, true) →
      consume tc m (cs ++ rest) acc cur = a := by
  intro cs
  induction cs with
  | nil =>
    intro rest acc cur a c h
    simp [addChunks] at h
  | cons x cs ih =>
    intro rest acc cur a c h
    rw [addChunks] at h
    rw [List.cons_append, consume]
    split_ifs at h ⊢ with h1 h2
    · exact ih rest acc cur a c h
    · simp only [Prod.mk.injEq] at h
      exact h.1
    · exact ih rest (acc ++ [x]) (cur + tc x) a c h

/-- When the inner loop of get_relevant_chunks finishes a candidate set
without hitting the budget, processing the flattened stream continues on
the remaining sets from the updated state. -/
theorem addChunks_consume_go (tc : String → Nat) (m : Nat) :
    ∀ (cs rest acc : List String) (cur : Nat) (a : List String) (c : Nat),
      addChunks tc m cs acc cur = (a, c, false) →
      consume tc m (cs ++ rest) acc cur = consume tc m rest a c := by
  intro cs
  induction cs with
  | nil =>
    intro rest acc cur a c h
    simp only [addChunks, Prod.mk.injEq] at h
    rw [List.nil_append, h.1, h.2.1]
  | cons x cs ih =>
    intro rest acc cur a c h
    rw [addChunks] at h
    rw [List.cons_append, consume]
    split_ifs at h ⊢ with h1 h2
    · exact ih rest acc cur a c h
    · simp at h
    · exact ih rest (acc ++ [x]) (cur + tc x) a c h

/-- The nested loop of get_relevant_chunks equals the single pass over
the flattened candidate stream. -/
theorem assembleAux_eq_consume (tc : String → Nat) (m : Nat) :
    ∀ (css : List (List String)) (acc : List String) (cur : Nat),
      assembleAux tc m css acc cur = consume tc m css.flatten acc cur := by
  intro css
  induction css with
  | nil => intro acc cur; simp [assembleAux, List.flatten, consume]
  | cons cs css ih =>
    intro acc cur
    rcases h : addChunks tc m cs acc cur with ⟨a, ⟨c, stopped⟩⟩
    have hg : assembleAux tc m (cs :: css) acc cur =
        if stopped then a else assembleAux tc m css a c := by
      rw [assembleAux, h]
    rw [hg, List.flatten_cons]
    cases stopped
    · rw [if_neg Bool.false_ne_true,
        addChunks_consume_go tc m cs css.flatten acc cur a c h]
      exact ih a c
    · rw [if_pos rfl,
        addChunks_consume_stop tc m cs css.flatten acc cur a c h]

/-- The running token total tracks the sum of the accumulated chunks and
never exceeds the budget. -/
theorem consume_budget (tc : String → Nat) (m : Nat) :
    ∀ (cs acc : List String) (cur : Nat), sumTokens tc acc = cur → cur ≤ m →
      sumTokens tc (consume tc m cs acc cur) ≤ m := by
  intro cs
  induction cs with
  | nil =>
    intro acc cur h1 h2
    rw [consume, h1]
    exact h2
  | cons c cs ih =>
    intro acc cur h1 h2
    rw [consume]
    split_ifs with hmem hov
    · exact ih acc cur h1 h2
    · rw [h1]; exact h2
    · refine ih (acc ++ [c]) (cur + tc c) ?_ (by omega)
      simp only [sumTokens, List.map_append, List.sum_append] at h1 ⊢
      simp [h1]

/-- Whatever first-occurrence deduplication emits was not seen before. -/
theorem not_mem_seen_of_mem_dedupFirstAux :
    ∀ (l seen : List String) (x : String),
      x ∈ dedupFirstAux seen l → x ∉ seen := by
  intro l
  induction l with
  | nil => intro seen x hx; simp [dedupFirstAux] at hx
  | cons y l ih =>
    intro seen x hx
    rw [dedupFirstAux] at hx
    split_ifs at hx with hy
    · exact ih seen x hx
    · rcases List.mem_cons.mp hx with rfl | hx'
      · exact hy
      · intro hxs
        exact ih (y :: seen) x hx' (List.mem_cons_of_mem y hxs)

/-- First-occurrence deduplication emits no duplicates. -/
theorem dedupFirstAux_nodup :
    ∀ (l seen : List String), (dedupFirstAux seen l).Nodup := by
  intro l
  induction l with
  | nil => intro seen; simp [dedupFirstAux]
  | cons y l ih =>
    intro seen
    rw [dedupFirstAux]
    split_ifs with hy
    · exact ih seen
    · refine List.nodup_cons.mpr ⟨?_, ih (y :: seen)⟩
      intro hmem
      exact not_mem_seen_of_mem_dedupFirstAux l (y :: seen) y hmem
        (List.mem_cons_self y seen)

/-- The flattened traversal appends to the accumulator a prefix of the
first-occurrence deduplication of the remaining stream (`seen` and the
accumulator holding the same contents). -/
theorem consume_prefix_dedup (tc : String → Nat) (m : Nat) :
    ∀ (cs seen acc : List String) (cur : Nat),
      (∀ x, x ∈ seen ↔ x ∈ acc) →
      ∃ p, consume tc m cs acc cur = acc ++ p ∧
        p <+: dedupFirstAux seen cs := by
  intro cs
  induction cs with
  | nil =>
    intro seen acc cur _
    exact ⟨[], by simp [consume], by simp [dedupFirstAux]⟩
  | cons c cs ih =>
    intro seen acc cur hseen
    by_cases hmem : c ∈ acc
    · have hs : c ∈ seen := (hseen c).mpr hmem
      rw [consume, if_pos hmem, dedupFirstAux, if_pos hs]
      exact ih seen acc cur hseen
    · have hs : c ∉ seen := fun hx => hmem ((hseen c).mp hx)
      rw [consume, if_neg hmem, dedupFirstAux, if_neg hs]
      by_cases hov : m < cur + tc c
      · rw [if_pos hov]
        exact ⟨[], by simp, ⟨_, rfl⟩⟩
      · rw [if_neg hov]
        have hmem2 : ∀ x, x ∈ c :: seen ↔ x ∈ acc ++ [c] := by
          intro x
          simp only [List.mem_cons, List.mem_append, List.mem_singleton]
          rw [hseen x]
          tauto
        obtain ⟨p, hp, hpre⟩ := ih (c :: seen) (acc ++ [c]) (cur + tc c) hmem2
        refine ⟨c :: p, ?_, ?_⟩
        · rw [hp, List.append_assoc, List.singleton_append]
        · obtain ⟨t, ht⟩ := hpre
          exact ⟨t, by rw [List.cons_append, ht]⟩

/-- When the whole deduplicated stream fits in the budget, the flattened
traversal emits it entirely. -/
theorem consume_all_of_budget (tc : String → Nat) (m : Nat) :
    ∀ (cs seen acc : List String) (cur : Nat),
      (∀ x, x ∈ seen ↔ x ∈ acc) →
      cur + sumTokens tc (dedupFirstAux seen cs) ≤ m →
      consume tc m cs acc cur = acc ++ dedupFirstAux seen cs := by
  intro cs
  induction cs with
  | nil => intro seen acc cur _ _; simp [consume, dedupFirstAux]
  | cons c cs ih =>
    intro seen acc cur hseen hbud
    by_cases hmem : c ∈ acc
    · have hs : c ∈ seen := (hseen c).mpr hmem
      rw [dedupFirstAux, if_pos hs] at hbud ⊢
      rw [consume, if_pos hmem]
      exact ih seen acc cur hseen hbud
    · have hs : c ∉ seen := fun hx => hmem ((hseen c).mp hx)
      rw [dedupFirstAux, if_neg hs] at hbud ⊢
      have hsum : sumTokens tc (c :: dedupFirstAux (c :: seen) cs) =
          tc c + sumTokens tc (dedupFirstAux (c :: seen) cs) := by
        simp [sumTokens]
      rw [hsum] at hbud
      have hov : ¬ m < cur + tc c := by omega
      rw [consume, if_neg hmem, if_neg hov]
      have hmem2 : ∀ x, x ∈ c :: seen ↔ x ∈ acc ++ [c] := by
        intro x
        simp only [List.mem_cons, List.mem_append, List.mem_singleton]
        rw [hseen x]
        tauto
      rw [ih (c :: seen) (acc ++ [c]) (cur + tc c) hmem2 (by omega),
        List.append_assoc, List.singleton_append]

/-- The positive step size of chunk_text after the overlap clamp. -/
theorem chunkStep_pos (maxT ovT : Nat) (h : 1 ≤ maxT) :
    0 < chunkStep maxT ovT := by
  rw [chunkStep, chunkOverlap]
  split_ifs with h1
  · have h2 : maxT / 4 < maxT := Nat.div_lt_self (by omega) (by norm_num)
    omega
  · omega

/-- Every pair emitted by the chunking loop is a decoded token slice with
its own length as count, bounded by the chunk size. -/
theorem chunkTextLoop_mem (d : List Nat → String) (tokens : List Nat)
    (maxT stepSize : Nat) :
    ∀ (fuel i : Nat), ∀ p ∈ chunkTextLoop d tokens maxT stepSize fuel i,
      p.2 ≤ maxT ∧ ∃ ts : List Nat, p.1 = d ts ∧ p.2 = ts.length := by
  intro fuel
  induction fuel with
  | zero => intro i p hp; simp [chunkTextLoop] at hp
  | succ fuel ih =>
    intro i p hp
    rw [chunkTextLoop] at hp
    rcases List.mem_cons.mp hp with rfl | hp'
    · refine ⟨?_, _, rfl, rfl⟩
      simp only [List.length_take, List.length_drop]
      omega
    · split_ifs at hp' with hend
      · simp at hp'
      · exact ih (i + 1) p hp'

/-! ### Claim theorems -/

/-- C1: context assembly uses hard-stop truncation — processing the
candidate sets in flattened fan-out order, a not-yet-seen chunk whose
token count would push the running total over the budget returns the
accumulated chunks at once, never looking at anything after it; on the
spec's worked example (A:50, B:60 then B:60, C:500 under budget 100) it
returns exactly [A] with total 50. -/
theorem assemble_hard_stop :
    (∀ (tc : String → Nat) (m : Nat) (c : String) (cs acc : List String)
        (cur : Nat), c ∉ acc → m < cur + tc c →
        consume tc m (c :: cs) acc cur = acc) ∧
    (∀ (tc : String → Nat) (m : Nat) (css : List (List String)),
        assemble tc m css = consume tc m css.flatten [] 0) ∧
    assemble tcEx 100 [["A", "B"], ["B", "C"]] = ["A"] ∧
    sumTokens tcEx (assemble tcEx 100 [["A", "B"], ["B", "C"]]) = 50 := by
  refine ⟨?_, ?_, by decide, by decide⟩
  · intro tc m c cs acc cur hmem hov
    rw [consume, if_neg hmem, if_pos hov]
  · intro tc m css
    rw [assemble, assembleAux_eq_consume]

/-- Witness for C1: from the state reached after adding A (50 tokens),
the unseen chunk B (60 tokens) overflows the budget of 100, and the
traversal returns [A] without looking at C. -/
theorem assemble_hard_stop_witness :
    consume tcEx 100 ["B", "C"] ["A"] 50 = ["A"] :=
  assemble_hard_stop.1 tcEx 100 "B" ["C"] ["A"] 50 (by decide) (by decide)

/-- C2: budget invariant — for every token counter, budget and sequence
of candidate sets, the token counts of the assembled chunks sum to at
most the budget. -/
theorem assemble_budget (tc : String → Nat) (m : Nat)
    (css : List (List String)) :
    sumTokens tc (assemble tc m css) ≤ m := by
  rw [assemble, assembleAux_eq_consume]
  exact consume_budget tc m css.flatten [] 0 rfl (Nat.zero_le m)

/-- C3: deduplication and order preservation — the assembled output has
no duplicate contents, it is a prefix of the first-occurrence
deduplication of the flattened fan-out traversal (hence a subsequence of
the traversal keeping only first occurrences, in traversal order), and it
is that whole deduplication whenever the budget accommodates it. -/
theorem assemble_dedup_order (tc : String → Nat) (m : Nat)
    (css : List (List String)) :
    (assemble tc m css).Nodup ∧
    assemble tc m css <+: dedupFirst css.flatten ∧
    (sumTokens tc (dedupFirst css.flatten) ≤ m →
      assemble tc m css = dedupFirst css.flatten) := by
  obtain ⟨p, hp, hpre⟩ := consume_prefix_dedup tc m css.flatten [] [] 0 (by simp)
  have he : assemble tc m css = p := by
    rw [assemble, assembleAux_eq_consume, hp, List.nil_append]
  refine ⟨?_, ?_, ?_⟩
  · rw [he]
    exact (dedupFirstAux_nodup css.flatten []).sublist hpre.sublist
  · rw [he]
    exact hpre
  · intro hbud
    rw [assemble, assembleAux_eq_consume,
      consume_all_of_budget tc m css.flatten [] [] 0 (by simp)
        (by simpa [dedupFirst] using hbud),
      List.nil_append]
    rfl

/-- C4: expansion fallback — whether the completion call raises, its
output fails to parse as JSON, or the parsed value's length is not the
requested count, generate returns exactly ([query], zero usage); the
model is total, so no exception reaches the caller. -/
theorem expansion_fallback (parseJson : String → Option Json)
    (query : String) (n : Nat) (_hn : 1 ≤ n) :
    (∀ msg, generate parseJson query n (.err msg) =
        (.arr [.str query], zeroUsage)) ∧
    (∀ content usage, parseJson content = none →
        generate parseJson query n (.ok content usage) =
          (.arr [.str query], zeroUsage)) ∧
    (∀ content usage j count, parseJson content = some j →
        pyLen j = some count → count ≠ n →
        generate parseJson query n (.ok content usage) =
          (.arr [.str query], zeroUsage)) := by
  refine ⟨fun msg => rfl, ?_, ?_⟩
  · intro content usage h
    simp [generate, h]
  · intro content usage j count h1 h2 h3
    simp [generate, h1, h2, h3]

/-- Witness for C4: four queries requested, the service parses to a
three-element list, and generate degrades to ([query], zero usage). -/
theorem expansion_fallback_witness :
    generate parseW "q" 4 (.ok "body" ⟨7, 8, 15⟩) =
      (.arr [.str "q"], zeroUsage) :=
  (expansion_fallback parseW "q" 4 (by decide)).2.2 "body" ⟨7, 8, 15⟩
    (.arr [.str "a", .str "b", .str "c"]) 3 rfl rfl (by decide)

/-- C5: meaningful-expansion gate — has_meaningful_queries is true
exactly when the expanded list has length above one and differs from
[query], and when it is false the retrieval phase issues no vector-store
lookup and hands the prompt builder the empty context. -/
theorem meaningful_expansion_gate (store : String → List String)
    (tc : String → Nat) (query : String) (es : List String) :
    (has_meaningful_queries query es = true ↔
      1 < es.length ∧ es ≠ [query]) ∧
    (has_meaningful_queries query es = false →
      retrievalPhase store tc query es = ("", [])) := by
  constructor
  · simp [has_meaningful_queries]
  · intro h
    simp [retrievalPhase, h]

/-- Witness for C5: a degenerate expansion equal to [query] suppresses
retrieval — empty context, no lookups. -/
theorem meaningful_expansion_gate_witness :
    retrievalPhase storeW tcW "q" ["q"] = ("", []) :=
  (meaningful_expansion_gate storeW tcW "q" ["q"]).2 (by decide)

/-- C6 counterexample: with an encoder family whose "gpt-4o-mini" encoder
splits "ab" into two tokens while the "gpt-4" encoder sees one, ingestion
stores the chunk "ab" with count 2, yet count_tokens — the number
assembly uses for budget checking — gives 1, so the budget-check count
does not equal the stored count. -/
theorem token_cache_counterexample :
    ("ab", 2) ∈ process_content encW6 decW6 "ab" ∧
      count_tokens encW6 "ab" ≠ 2 := by
  decide

/-- C6 (amended): token counts are computed and stored at ingestion, but
assembly recomputes each chunk's count with count_tokens instead of
looking the stored count up — its result does not depend on the stored
metadata at all. -/
theorem assembly_ignores_stored_counts (enc : String → String → List Nat)
    (storeA storeB : String → List (String × Nat)) (query : String)
    (es : List String)
    (h : ∀ q, queryDocuments storeA q = queryDocuments storeB q) :
    app_retrieval enc storeA query es = app_retrieval enc storeB query es := by
  have he : queryDocuments storeA = queryDocuments storeB := funext h
  rw [app_retrieval, app_retrieval, he]

/-- Witness for the amended C6: two stores with the same documents but
different stored token metadata yield identical retrieval results. -/
theorem assembly_ignores_stored_counts_witness :
    app_retrieval encW6 storeA6 "q" [] = app_retrieval encW6 storeB6 "q" [] :=
  assembly_ignores_stored_counts encW6 storeA6 storeB6 "q" []
    (fun _ => rfl)

/-- C7 counterexample: for the turn built from empty context and query
"q", the last message handed to the completion call is not the original
user query — chat_stream has appended the placeholder RAG context to
it. -/
theorem chat_delivery_counterexample :
    ((deliveredMessages (chatMessages "" "q")).getLast?).map
        Message.content ≠ some "q" := by
  decide

/-- C7 (amended): the orchestration builds the two-message list
[system_prompt, user_query], but chat_stream's preprocessing rewrites the
user message to the original query followed by a fixed
"Relevant Building Code Context" placeholder before the completion call;
the retrieved context itself appears only inside the system prompt. -/
theorem chat_delivery_rewrites_user_message (context query : String) :
    deliveredMessages (chatMessages context query) =
      [⟨"system", generate_system_prompt context⟩,
        ⟨"user", query ++ ragSuffix⟩] := by
  rfl

/-- C8: completion-failure handling — whenever an exception occurs in
chat streaming (probe call, mid-stream, or final usage call), the yielded
stream ends with an inline payload "Error: " ++ message followed by the
zero usage record; the model is total, so nothing is re-raised. -/
theorem completion_failure_inline (api : ApiBehavior)
    (hfail : (∃ e, api.probe = .error e) ∨ api.streamErr ≠ none ∨
      (∃ e, api.final = .error e)) :
    ∃ (pre : List StreamItem) (e : String),
      chat_stream api = pre ++ [.text ("Error: " ++ e), .usage zeroUsage] := by
  obtain ⟨probe, deltas, streamErr, final⟩ := api
  cases probe with
  | error e => exact ⟨[], e, rfl⟩
  | ok p =>
    cases streamErr with
    | some e => exact ⟨(deltas.filterMap id).map StreamItem.text, e, rfl⟩
    | none =>
      cases final with
      | error e => exact ⟨(deltas.filterMap id).map StreamItem.text, e, rfl⟩
      | ok c =>
        rcases hfail with ⟨e, he⟩ | h | ⟨e, he⟩
        · cases he
        · exact absurd rfl h
        · cases he

/-- Witness for C8: a probe call that raises "boom" produces a stream
ending with the inline error payload and the zero usage record. -/
theorem completion_failure_inline_witness :
    ∃ (pre : List StreamItem) (e : String),
      chat_stream apiW = pre ++ [.text ("Error: " ++ e), .usage zeroUsage] :=
  completion_failure_inline apiW (Or.inl ⟨"boom", rfl⟩)

/-- C9: chunk_text is total (embedded as a structurally terminating
function), its step size stays strictly positive for any max_tokens ≥ 1
because an oversized overlap is clamped to max_tokens / 4, and every
returned pair is a decoded token slice paired with that slice's length,
which never exceeds max_tokens. -/
theorem chunk_text_bounds (enc : String → String → List Nat)
    (dec : String → List Nat → String) (text : String)
    (maxT ovT : Nat) (model : String) (h : 1 ≤ maxT) :
    0 < chunkStep maxT ovT ∧
    (maxT ≤ ovT → chunkOverlap maxT ovT = maxT / 4) ∧
    ∀ p ∈ chunk_text enc dec text maxT ovT model,
      p.2 ≤ maxT ∧ ∃ ts : List Nat, p.1 = dec model ts ∧ p.2 = ts.length := by
  refine ⟨chunkStep_pos maxT ovT h, ?_, ?_⟩
  · intro h1
    rw [chunkOverlap, if_pos h1]
  · intro p hp
    simp only [chunk_text] at hp
    exact chunkTextLoop_mem (dec model) (enc model text) maxT _ _ _ p hp

/-- Witness for C9: chunking with max_tokens 2 and an oversized overlap
of 5 keeps a positive step and emits only slices of at most 2 tokens. -/
theorem chunk_text_bounds_witness :
    0 < chunkStep 2 5 ∧ (2 ≤ 5 → chunkOverlap 2 5 = 2 / 4) ∧
    ∀ p ∈ chunk_text encC decC "t" 2 5 "m",
      p.2 ≤ 2 ∧ ∃ ts : List Nat, p.1 = decC "m" ts ∧ p.2 = ts.length :=
  chunk_text_bounds encC decC "t" 2 5 "m" (by decide)

/-- C10: generate's success-path validation checks only the element
count — any parsed value whose Python length is the requested count is
returned unchanged with the service's usage, strings or not. -/
theorem generate_count_only_validation (parseJson : String → Option Json)
    (query content : String) (usage : TokenUsage) (xs : List Json) (n : Nat)
    (hp : parseJson content = some (.arr xs)) (hl : xs.length = n) :
    generate parseJson query n (.ok content usage) = (.arr xs, usage) := by
  subst hl
  simp [generate, hp, pyLen]

/-- Witness for C10: a parsed list of two numbers, with two queries
requested, is returned as-is together with the service usage. -/
theorem generate_count_only_validation_witness :
    generate parseNumsW "q" 2 (.ok "body" ⟨3, 4, 7⟩) =
      (.arr [.num 1, .num 2], ⟨3, 4, 7⟩) :=
  generate_count_only_validation parseNumsW "q" "body" ⟨3, 4, 7⟩
    [.num 1, .num 2] 2 rfl rfl

end OBC
